import Mathlib

/-!
Shallow embedding of the medicine inventory store
(`useMedicineStore` in the zustand store module, plus the blockchain
service wrapper `getMedicineOnChain`).

External collaborators (Firestore, the ledger contract) are modelled as
explicit function parameters returning `Except String _` (a rejected
promise is `Except.error`); the ledger read wrapper returns
`Option ChainData` (`none` models the `null` it returns after catching).
Each store operation is a pure function from the collaborator results and
the previous `MedicineState` to the new state, the operation's return
value, and the list of external calls it performed.
-/

/-- History entry appended by `approveMedicine`:
`{ action, timestamp, changes }` in the source. -/
structure HistoryEntry where
  action : String
  timestamp : String
  changes : String
deriving DecidableEq

/-- The medicine record held in the store (fields used by the store module;
`history` defaults to `[]`, modelling `m.history || []`). -/
structure Medicine where
  id : String
  name : String
  batchNo : String
  manufacturer : String
  price : Int
  stock : Int
  mfgDate : Int
  expDate : Int
  stockStatus : String
  ledgerStatus : String
  listingStatus : String
  onChain : Bool
  txHash : String
  history : List HistoryEntry := []
deriving DecidableEq

/-- The record shape returned by the blockchain service read wrapper. -/
structure ChainData where
  name : String
  batch : String
  manufacturer : String
  price : Int
  stock : Int
  mfgDate : Int
  expDate : Int
  «exists» : Bool
deriving DecidableEq

/-- Payload of `addMedicine` (`NewMedicine`); the two dates are epoch
milliseconds, the result of `new Date(...).getTime()`. -/
structure NewMedicine where
  name : String
  batchNo : String
  manufacturer : String
  price : Int
  quantity : Int
  mfgDate : Int
  expDate : Int
deriving DecidableEq

/-- Partial medicine fields (`UpdateMedicine`): what `updateMedicineInFirestore`
receives and returns. A `none` field is absent from the object. -/
structure UpdateMedicine where
  name : Option String := none
  batchNo : Option String := none
  manufacturer : Option String := none
  price : Option Int := none
  stock : Option Int := none
  mfgDate : Option Int := none
  expDate : Option Int := none
  stockStatus : Option String := none
  ledgerStatus : Option String := none
  listingStatus : Option String := none
  onChain : Option Bool := none
  txHash : Option String := none
  history : Option (List HistoryEntry) := none
deriving DecidableEq

/-- The object `addMedicine` passes to `addMedicineToFirestore`:
`{ ...payload, txHash, ledgerStatus, onChain }`. -/
structure CreateFields where
  payload : NewMedicine
  txHash : String
  ledgerStatus : String
  onChain : Bool
deriving DecidableEq

/-- One call to an external collaborator, recorded in order. -/
inductive ExtCall where
  | ledgerWrite (name batch manufacturer : String) (price stock mfgEpoch expEpoch : Int)
  | ledgerRead (batch : String)
  | fsList
  | fsCreate (fields : CreateFields)
  | fsUpdate (id : String) (fields : UpdateMedicine)
deriving DecidableEq

/-- The zustand store state. -/
structure MedicineState where
  medicines : List Medicine
  isInitialized : Bool
  error : Option String
  loading : Bool
deriving DecidableEq

/-- `getStockStatus` from the store module. -/
def getStockStatus (quantity : Int) : String :=
  if quantity ≤ 0 then "Out of Stock"
  else if quantity ≤ 50 then "Low Stock"
  else "In Stock"

/-- `getUIStockStatus` from the stock page component. -/
def getUIStockStatus (qty : Int) : String :=
  if qty ≤ 0 then "Out of Stock"
  else if qty ≤ 50 then "Low Stock"
  else "In Stock"

/-- The JS truthiness test `chainData && chainData.exists`. -/
def chainReported (chainData : Option ChainData) : Bool :=
  match chainData with
  | some cd => cd.«exists»
  | none => false

/-- Body of the per-record merge in `fetchMedicines`: ledger overwrite of
`ledgerStatus`/`stock`/`price`/`manufacturer` when the chain reports the
batch, then `stockStatus` recomputed from the (possibly overwritten) stock. -/
def mergeMedicine (chainData : Option ChainData) (med : Medicine) : Medicine :=
  let med1 :=
    match chainData with
    | some cd =>
      if cd.«exists» then
        { med with ledgerStatus := "On-Chain", stock := cd.stock, price := cd.price,
                   manufacturer := cd.manufacturer }
      else
        { med with ledgerStatus := "Pending Confirmation" }
    | none => { med with ledgerStatus := "Pending Confirmation" }
  { med1 with stockStatus := getStockStatus med1.stock }

/-- The sequential `for (const med of meds)` loop of `fetchMedicines`:
each ledger lookup may reject, and the first rejection aborts the loop. -/
def fetchLoop (getChain : String → Except String (Option ChainData)) :
    List Medicine → Except String (List Medicine)
  | [] => Except.ok []
  | med :: rest =>
    match getChain med.batchNo with
    | Except.error e => Except.error e
    | Except.ok chainData =>
      match fetchLoop getChain rest with
      | Except.error e => Except.error e
      | Except.ok rest2 => Except.ok (mergeMedicine chainData med :: rest2)

/-- Result of the `try` block of `fetchMedicines`: the Firestore list call,
then the merge loop. -/
def fetchResult (getMeds : Except String (List Medicine))
    (getChain : String → Except String (Option ChainData)) :
    Except String (List Medicine) :=
  match getMeds with
  | Except.error e => Except.error e
  | Except.ok meds => fetchLoop getChain meds

/-- `fetchMedicines`: sets `loading`, runs the merge, and publishes either the
merged list (success) or `loading=false` with the error message (failure). -/
def fetchMedicines (getMeds : Except String (List Medicine))
    (getChain : String → Except String (Option ChainData))
    (s : MedicineState) : MedicineState :=
  let s1 : MedicineState := { s with loading := true }
  match fetchResult getMeds getChain with
  | Except.ok merged =>
    { s1 with medicines := merged, isInitialized := true, loading := false }
  | Except.error _ =>
    { s1 with loading := false, error := some "Failed to fetch medicines" }

/-- The Firestore payload built in `addMedicine`:
`ledgerStatus` resolved from the re-query, `onChain := ledgerStatus === "On-Chain"`. -/
def mkCreateFields (payload : NewMedicine) (txHash : String)
    (chainData : Option ChainData) : CreateFields :=
  let ledgerStatus := if chainReported chainData then "On-Chain" else "Pending Confirmation"
  { payload := payload, txHash := txHash, ledgerStatus := ledgerStatus,
    onChain := ledgerStatus == "On-Chain" }

/-- `addMedicine`: ledger write, ledger re-query, Firestore create, prepend.
Any rejection lands in the `catch` (returns `none`); the `finally` clears
`loading` on every path. -/
def addMedicine
    (addOnChain : String → String → String → Int → Int → Int → Int → Except String String)
    (getChain : String → Except String (Option ChainData))
    (createFS : CreateFields → Except String Medicine)
    (payload : NewMedicine) (s : MedicineState) :
    MedicineState × Option Medicine × List ExtCall :=
  let s1 : MedicineState := { s with loading := true }
  let mfgEpoch := Int.fdiv payload.mfgDate 1000
  let expEpoch := Int.fdiv payload.expDate 1000
  let wcall := ExtCall.ledgerWrite payload.name payload.batchNo payload.manufacturer
      payload.price payload.quantity mfgEpoch expEpoch
  match addOnChain payload.name payload.batchNo payload.manufacturer
      payload.price payload.quantity mfgEpoch expEpoch with
  | Except.error _ => ({ s1 with loading := false }, none, [wcall])
  | Except.ok txHash =>
    match getChain payload.batchNo with
    | Except.error _ =>
      ({ s1 with loading := false }, none, [wcall, ExtCall.ledgerRead payload.batchNo])
    | Except.ok chainData =>
      let fields := mkCreateFields payload txHash chainData
      match createFS fields with
      | Except.error _ =>
        ({ s1 with loading := false }, none,
          [wcall, ExtCall.ledgerRead payload.batchNo, ExtCall.fsCreate fields])
      | Except.ok newMed =>
        ({ s1 with medicines := newMed :: s1.medicines, loading := false }, some newMed,
          [wcall, ExtCall.ledgerRead payload.batchNo, ExtCall.fsCreate fields])

/-- The shallow merge `{ ...m, ...updatedData }`: a field present in the
response wins, an absent field keeps the prior record's value. -/
def applyUpdate (m : Medicine) (u : UpdateMedicine) : Medicine :=
  { id := m.id,
    name := u.name.getD m.name,
    batchNo := u.batchNo.getD m.batchNo,
    manufacturer := u.manufacturer.getD m.manufacturer,
    price := u.price.getD m.price,
    stock := u.stock.getD m.stock,
    mfgDate := u.mfgDate.getD m.mfgDate,
    expDate := u.expDate.getD m.expDate,
    stockStatus := u.stockStatus.getD m.stockStatus,
    ledgerStatus := u.ledgerStatus.getD m.ledgerStatus,
    listingStatus := u.listingStatus.getD m.listingStatus,
    onChain := u.onChain.getD m.onChain,
    txHash := u.txHash.getD m.txHash,
    history := u.history.getD m.history }

/-- The `state.medicines.map(...)` of `updateMedicine`, threading the
mutable `updatedMed` variable (`acc`) left to right. -/
def updateList (id : String) (u : UpdateMedicine) (acc : Option Medicine) :
    List Medicine → List Medicine × Option Medicine
  | [] => ([], acc)
  | m :: rest =>
    if m.id == id then
      let um := applyUpdate m u
      let r := updateList id u (some um) rest
      (um :: r.1, r.2)
    else
      let r := updateList id u acc rest
      (m :: r.1, r.2)

/-- `updateMedicine`: Firestore update, then shallow merge into the matching
record; `none` on rejection; `loading` cleared on every path. -/
def updateMedicine
    (updateFS : String → UpdateMedicine → Except String UpdateMedicine)
    (id : String) (payload : UpdateMedicine) (s : MedicineState) :
    MedicineState × Option Medicine × List ExtCall :=
  let s1 : MedicineState := { s with loading := true }
  match updateFS id payload with
  | Except.error _ => ({ s1 with loading := false }, none, [ExtCall.fsUpdate id payload])
  | Except.ok updatedData =>
    let r := updateList id updatedData none s1.medicines
    ({ s1 with medicines := r.1, loading := false }, r.2, [ExtCall.fsUpdate id payload])

/-- The history entry literal in `approveMedicine`
(`timestamp` is `new Date().toISOString()`, passed in as `now`). -/
def mkApproveEntry (now : String) : HistoryEntry :=
  { action := "APPROVED", timestamp := now, changes := "Approved by Admin" }

/-- The updated record built in `approveMedicine` for a matching id. -/
def approveRecord (now : String) (m : Medicine) : Medicine :=
  { m with listingStatus := "Approved", history := m.history ++ [mkApproveEntry now] }

/-- The payload `{ listingStatus: "Approved" }` sent by `approveMedicine`. -/
def approvePayload : UpdateMedicine := { listingStatus := some "Approved" }

/-- The `state.medicines.map(...)` of `approveMedicine`, threading the
mutable `approved` variable (`acc`) left to right. -/
def approveList (now id : String) (acc : Option Medicine) :
    List Medicine → List Medicine × Option Medicine
  | [] => ([], acc)
  | m :: rest =>
    if m.id == id then
      let am := approveRecord now m
      let r := approveList now id (some am) rest
      (am :: r.1, r.2)
    else
      let r := approveList now id acc rest
      (m :: r.1, r.2)

/-- `approveMedicine`: Firestore update (response unused), then local update
of the matching record with one appended history entry. -/
def approveMedicine
    (updateFS : String → UpdateMedicine → Except String UpdateMedicine)
    (now : String) (id : String) (s : MedicineState) :
    MedicineState × Option Medicine × List ExtCall :=
  let s1 : MedicineState := { s with loading := true }
  match updateFS id approvePayload with
  | Except.error _ => ({ s1 with loading := false }, none, [ExtCall.fsUpdate id approvePayload])
  | Except.ok _ =>
    let r := approveList now id none s1.medicines
    ({ s1 with medicines := r.1, loading := false }, r.2, [ExtCall.fsUpdate id approvePayload])

/-- `getMedicineOnChain` from the blockchain service: the raw contract call
may reject; the wrapper catches and returns `null` (`none`), otherwise it
rebuilds the record field by field. -/
def getMedicineOnChain (contractGet : String → Except String ChainData)
    (batch : String) : Option ChainData :=
  match contractGet batch with
  | Except.ok data =>
    some { name := data.name, batch := data.batch, manufacturer := data.manufacturer,
           price := data.price, stock := data.stock, mfgDate := data.mfgDate,
           expDate := data.expDate, «exists» := data.«exists» }
  | Except.error _ => none

/-! ## Helper lemmas about the merge -/

/-- When the ledger reports the batch, the merge overwrites the three fields
and recomputes `stockStatus` from the ledger stock. -/
theorem mergeMedicine_reported (cd : ChainData) (med : Medicine) (h : cd.«exists» = true) :
    mergeMedicine (some cd) med =
      { med with ledgerStatus := "On-Chain", stock := cd.stock, price := cd.price,
                 manufacturer := cd.manufacturer, stockStatus := getStockStatus cd.stock } := by
  simp [mergeMedicine, h]

/-- When the ledger does not report the batch (null or `exists` false), only
`ledgerStatus` and `stockStatus` change. -/
theorem mergeMedicine_not_reported (o : Option ChainData) (med : Medicine)
    (h : chainReported o = false) :
    mergeMedicine o med =
      { med with ledgerStatus := "Pending Confirmation",
                 stockStatus := getStockStatus med.stock } := by
  cases o with
  | none => simp [mergeMedicine]
  | some cd =>
    simp only [chainReported] at h
    simp [mergeMedicine, h]

/-- Every merged record's `stockStatus` is the classifier of its own
(post-merge) stock. -/
theorem mergeMedicine_stockStatus (o : Option ChainData) (med : Medicine) :
    (mergeMedicine o med).stockStatus = getStockStatus (mergeMedicine o med).stock := by
  cases o with
  | none => simp [mergeMedicine]
  | some cd =>
    cases h : cd.«exists» <;> simp [mergeMedicine, h]

/-- A successful merge loop pairs every input record with its merge under the
ledger value its lookup returned. -/
theorem fetchLoop_ok_forall2 (getChain : String → Except String (Option ChainData))
    (meds merged : List Medicine)
    (h : fetchLoop getChain meds = Except.ok merged) :
    List.Forall₂
      (fun med r => ∃ cd, getChain med.batchNo = Except.ok cd ∧ r = mergeMedicine cd med)
      meds merged := by
  induction meds generalizing merged with
  | nil =>
    simp only [fetchLoop, Except.ok.injEq] at h
    subst h
    exact List.Forall₂.nil
  | cons med rest ih =>
    simp only [fetchLoop] at h
    cases hc : getChain med.batchNo with
    | error e => rw [hc] at h; exact absurd h (by simp)
    | ok cd =>
      rw [hc] at h
      cases hr : fetchLoop getChain rest with
      | error e => rw [hr] at h; exact absurd h (by simp)
      | ok rest2 =>
        rw [hr] at h
        simp only [Except.ok.injEq] at h
        subst h
        exact List.Forall₂.cons ⟨cd, hc, rfl⟩ (ih rest2 hr)

/-- A successful fetch publishes the merged list, sets the initialization
flag, clears `loading` and leaves `error` alone. -/
theorem fetchMedicines_ok (getMeds : Except String (List Medicine))
    (getChain : String → Except String (Option ChainData))
    (s : MedicineState) (merged : List Medicine)
    (h : fetchResult getMeds getChain = Except.ok merged) :
    fetchMedicines getMeds getChain s =
      { medicines := merged, isInitialized := true, error := s.error, loading := false } := by
  unfold fetchMedicines
  rw [h]

/-! ## Claim theorems -/

/-- C3: the stock classifier is total with images Out of Stock / Low Stock /
In Stock on q ≤ 0, 0 < q ≤ 50 and q > 50 respectively, the UI copy of the
classifier agrees with it everywhere, and the boundary cases are
classify(50) = Low Stock and classify(51) = In Stock. -/
theorem getStockStatus_spec (q : Int) :
    (getStockStatus q = "Out of Stock" ↔ q ≤ 0) ∧
    (getStockStatus q = "Low Stock" ↔ 0 < q ∧ q ≤ 50) ∧
    (getStockStatus q = "In Stock" ↔ 50 < q) ∧
    (getStockStatus q = "Out of Stock" ∨ getStockStatus q = "Low Stock" ∨
      getStockStatus q = "In Stock") ∧
    getUIStockStatus q = getStockStatus q ∧
    getStockStatus 50 = "Low Stock" ∧ getStockStatus 51 = "In Stock" := by
  unfold getStockStatus getUIStockStatus
  by_cases h1 : q ≤ 0 <;> by_cases h2 : q ≤ 50 <;> simp [h1, h2] <;> omega

/-- Every record of a successfully merged list carries a stockStatus equal to
the classifier of its own stock. -/
theorem fetchLoop_stockStatus (getChain : String → Except String (Option ChainData))
    (meds merged : List Medicine) (h : fetchLoop getChain meds = Except.ok merged) :
    ∀ r ∈ merged, r.stockStatus = getStockStatus r.stock := by
  induction meds generalizing merged with
  | nil =>
    simp only [fetchLoop, Except.ok.injEq] at h
    subst h
    simp
  | cons med rest ih =>
    simp only [fetchLoop] at h
    cases hc : getChain med.batchNo with
    | error e => rw [hc] at h; exact absurd h (by simp)
    | ok cd =>
      rw [hc] at h
      cases hr : fetchLoop getChain rest with
      | error e => rw [hr] at h; exact absurd h (by simp)
      | ok rest2 =>
        rw [hr] at h
        simp only [Except.ok.injEq] at h
        subst h
        intro r hr2
        rcases List.mem_cons.mp hr2 with h1 | h1
        · subst h1; exact mergeMedicine_stockStatus cd med
        · exact ih rest2 hr r h1

/-- C1: after a successful fetch, each returned record is On-Chain with
stock, price and manufacturer taken from the ledger when the ledger reported
an existing record for its batch number, and is otherwise Pending
Confirmation with those database-sourced fields left unchanged. -/
theorem fetchMedicines_ledger_merge
    (getMeds : Except String (List Medicine))
    (getChain : String → Except String (Option ChainData))
    (s : MedicineState) (meds merged : List Medicine)
    (hm : getMeds = Except.ok meds)
    (hl : fetchLoop getChain meds = Except.ok merged) :
    (fetchMedicines getMeds getChain s).medicines = merged ∧
    List.Forall₂ (fun med r =>
      (∀ cd : ChainData, getChain med.batchNo = Except.ok (some cd) →
        cd.«exists» = true →
        r.ledgerStatus = "On-Chain" ∧ r.stock = cd.stock ∧ r.price = cd.price ∧
        r.manufacturer = cd.manufacturer) ∧
      (∀ o : Option ChainData, getChain med.batchNo = Except.ok o →
        chainReported o = false →
        r.ledgerStatus = "Pending Confirmation" ∧ r.stock = med.stock ∧
        r.price = med.price ∧ r.manufacturer = med.manufacturer)) meds merged := by
  constructor
  · have hres : fetchResult getMeds getChain = Except.ok merged := by
      simp [fetchResult, hm, hl]
    rw [fetchMedicines_ok getMeds getChain s merged hres]
  · refine (fetchLoop_ok_forall2 getChain meds merged hl).imp ?_
    rintro med r ⟨oc, hoc, rfl⟩
    constructor
    · intro cd h1 h2
      rw [hoc] at h1
      injection h1 with h1
      subst h1
      rw [mergeMedicine_reported cd med h2]
      exact ⟨rfl, rfl, rfl, rfl⟩
    · intro o h1 h2
      rw [hoc] at h1
      injection h1 with h1
      subst h1
      rw [mergeMedicine_not_reported oc med h2]
      exact ⟨rfl, rfl, rfl, rfl⟩

/-- C2: after a successful fetch, every published record's stockStatus equals
the classifier applied to that record's post-merge stock. -/
theorem fetchMedicines_stockStatus_spec
    (getMeds : Except String (List Medicine))
    (getChain : String → Except String (Option ChainData))
    (s : MedicineState) (meds merged : List Medicine)
    (hm : getMeds = Except.ok meds)
    (hl : fetchLoop getChain meds = Except.ok merged) :
    ∀ r ∈ (fetchMedicines getMeds getChain s).medicines,
      r.stockStatus = getStockStatus r.stock := by
  have hres : fetchResult getMeds getChain = Except.ok merged := by
    simp [fetchResult, hm, hl]
  rw [fetchMedicines_ok getMeds getChain s merged hres]
  exact fetchLoop_stockStatus getChain meds merged hl

/-- C4: if the Firestore list call rejects, or some per-record ledger lookup
rejects, the whole fetch aborts: loading ends false, the store error message
is set, and the published list and initialization flag are exactly what they
were before the fetch. -/
theorem fetchMedicines_failure
    (getMeds : Except String (List Medicine))
    (getChain : String → Except String (Option ChainData))
    (s : MedicineState) (e : String)
    (h : getMeds = Except.error e ∨
      ∃ meds, getMeds = Except.ok meds ∧ fetchLoop getChain meds = Except.error e) :
    (fetchMedicines getMeds getChain s).loading = false ∧
    (fetchMedicines getMeds getChain s).error = some "Failed to fetch medicines" ∧
    (fetchMedicines getMeds getChain s).medicines = s.medicines ∧
    (fetchMedicines getMeds getChain s).isInitialized = s.isInitialized := by
  have hres : fetchResult getMeds getChain = Except.error e := by
    rcases h with h | ⟨meds, h1, h2⟩
    · simp [fetchResult, h]
    · simp [fetchResult, h1, h2]
  unfold fetchMedicines
  rw [hres]
  exact ⟨rfl, rfl, rfl, rfl⟩

/-! ## Concrete sample data for witnesses -/

/-- A sample database record. -/
def medA : Medicine :=
  { id := "m1", name := "Paracetamol", batchNo := "B1", manufacturer := "Acme",
    price := 10, stock := 30, mfgDate := 1000, expDate := 2000, stockStatus := "In Stock",
    ledgerStatus := "Pending Confirmation", listingStatus := "Pending",
    onChain := false, txHash := "" }

/-- A sample ledger record reporting batch B1 as existing. -/
def chainA : ChainData :=
  { name := "Paracetamol", batch := "B1", manufacturer := "ChainCorp", price := 7,
    stock := 5, mfgDate := 1, expDate := 2, «exists» := true }

/-- A ledger lookup that always resolves with `chainA`. -/
def chainFnA : String → Except String (Option ChainData) :=
  fun _ => Except.ok (some chainA)

/-- An empty initial store state. -/
def state0 : MedicineState :=
  { medicines := [], isInitialized := false, error := none, loading := false }

/-- Witness for C1: a one-record fetch against a ledger that reports B1. -/
theorem fetchMedicines_ledger_merge_witness :
    (fetchMedicines (Except.ok [medA]) chainFnA state0).medicines
      = [mergeMedicine (some chainA) medA] :=
  (fetchMedicines_ledger_merge (Except.ok [medA]) chainFnA state0 [medA]
    [mergeMedicine (some chainA) medA] rfl rfl).1

/-- Witness for C2: the merged record of the one-record fetch satisfies the
classifier equation. -/
theorem fetchMedicines_stockStatus_witness :
    (mergeMedicine (some chainA) medA).stockStatus
      = getStockStatus (mergeMedicine (some chainA) medA).stock :=
  fetchMedicines_stockStatus_spec (Except.ok [medA]) chainFnA state0 [medA]
    [mergeMedicine (some chainA) medA] rfl rfl
    (mergeMedicine (some chainA) medA) (by decide)

/-- Witness for C4: a rejected Firestore list call leaves the list empty and
sets the error message. -/
theorem fetchMedicines_failure_witness :
    (fetchMedicines (Except.error "boom") chainFnA state0).medicines = state0.medicines ∧
    (fetchMedicines (Except.error "boom") chainFnA state0).error
      = some "Failed to fetch medicines" :=
  ⟨(fetchMedicines_failure (Except.error "boom") chainFnA state0 "boom" (Or.inl rfl)).2.2.1,
   (fetchMedicines_failure (Except.error "boom") chainFnA state0 "boom" (Or.inl rfl)).2.1⟩

/-- C5: if the ledger write rejects, addMedicine makes no Firestore create
call (the trace holds only the ledger write), leaves the in-memory list
unchanged, returns none, and ends with loading false; moreover loading is
false after addMedicine on every path, success or failure. -/
theorem addMedicine_ledger_write_fail
    (addOnChain : String → String → String → Int → Int → Int → Int → Except String String)
    (getChain : String → Except String (Option ChainData))
    (createFS : CreateFields → Except String Medicine)
    (payload : NewMedicine) (s : MedicineState) (e : String)
    (h : addOnChain payload.name payload.batchNo payload.manufacturer
        payload.price payload.quantity (Int.fdiv payload.mfgDate 1000)
        (Int.fdiv payload.expDate 1000) = Except.error e) :
    (addMedicine addOnChain getChain createFS payload s).1.medicines = s.medicines ∧
    (addMedicine addOnChain getChain createFS payload s).2.1 = none ∧
    (addMedicine addOnChain getChain createFS payload s).2.2
      = [ExtCall.ledgerWrite payload.name payload.batchNo payload.manufacturer
          payload.price payload.quantity (Int.fdiv payload.mfgDate 1000)
          (Int.fdiv payload.expDate 1000)] ∧
    (addMedicine addOnChain getChain createFS payload s).1.loading = false ∧
    (∀ (aoc : String → String → String → Int → Int → Int → Int → Except String String)
       (gc : String → Except String (Option ChainData))
       (cf : CreateFields → Except String Medicine)
       (p : NewMedicine) (st : MedicineState),
       (addMedicine aoc gc cf p st).1.loading = false) := by
  refine ⟨?_, ?_, ?_, ?_, ?_⟩
  · simp only [addMedicine]; rw [h]
  · simp only [addMedicine]; rw [h]
  · simp only [addMedicine]; rw [h]
  · simp only [addMedicine]; rw [h]
  · intro aoc gc cf p st
    simp only [addMedicine]
    split
    · rfl
    next =>
      split
      · rfl
      next =>
        split <;> rfl

/-- C6: on success, addMedicine prepends the Firestore-created record to the
front of the list and returns it; the fields passed to the create call carry
the ledger transaction hash, the ledger status resolved by re-querying the
ledger for the batch number, and an onChain boolean that is true iff that
resolved status is On-Chain. -/
theorem addMedicine_success
    (addOnChain : String → String → String → Int → Int → Int → Int → Except String String)
    (getChain : String → Except String (Option ChainData))
    (createFS : CreateFields → Except String Medicine)
    (payload : NewMedicine) (s : MedicineState) (tx : String)
    (cd : Option ChainData) (newMed : Medicine)
    (h1 : addOnChain payload.name payload.batchNo payload.manufacturer payload.price
        payload.quantity (Int.fdiv payload.mfgDate 1000) (Int.fdiv payload.expDate 1000)
        = Except.ok tx)
    (h2 : getChain payload.batchNo = Except.ok cd)
    (h3 : createFS (mkCreateFields payload tx cd) = Except.ok newMed) :
    (addMedicine addOnChain getChain createFS payload s).1.medicines
      = newMed :: s.medicines ∧
    (addMedicine addOnChain getChain createFS payload s).2.1 = some newMed ∧
    (mkCreateFields payload tx cd).payload = payload ∧
    (mkCreateFields payload tx cd).txHash = tx ∧
    (mkCreateFields payload tx cd).ledgerStatus
      = (if chainReported cd then "On-Chain" else "Pending Confirmation") ∧
    ((mkCreateFields payload tx cd).onChain = true ↔
      (mkCreateFields payload tx cd).ledgerStatus = "On-Chain") ∧
    (addMedicine addOnChain getChain createFS payload s).2.2
      = [ExtCall.ledgerWrite payload.name payload.batchNo payload.manufacturer
          payload.price payload.quantity (Int.fdiv payload.mfgDate 1000)
          (Int.fdiv payload.expDate 1000),
         ExtCall.ledgerRead payload.batchNo,
         ExtCall.fsCreate (mkCreateFields payload tx cd)] := by
  have hiff : (mkCreateFields payload tx cd).onChain = true ↔
      (mkCreateFields payload tx cd).ledgerStatus = "On-Chain" := by
    cases hb : chainReported cd <;> simp [mkCreateFields, hb]
  refine ⟨?_, ?_, rfl, rfl, rfl, hiff, ?_⟩ <;> simp only [addMedicine, h1, h2, h3]

/-- A sample addMedicine payload. -/
def payloadA : NewMedicine :=
  { name := "Ibuprofen", batchNo := "B2", manufacturer := "Acme", price := 20,
    quantity := 60, mfgDate := 5000, expDate := 9000 }

/-- A ledger write that always rejects (no signing identity). -/
def addFail : String → String → String → Int → Int → Int → Int → Except String String :=
  fun _ _ _ _ _ _ _ => Except.error "no signing identity"

/-- A ledger write that always resolves with a transaction hash. -/
def addOk : String → String → String → Int → Int → Int → Int → Except String String :=
  fun _ _ _ _ _ _ _ => Except.ok "0xabc"

/-- The record a sample Firestore create call returns. -/
def createdA : Medicine :=
  { id := "new1", name := "Ibuprofen", batchNo := "B2", manufacturer := "Acme",
    price := 20, stock := 60, mfgDate := 5, expDate := 9, stockStatus := "In Stock",
    ledgerStatus := "On-Chain", listingStatus := "Pending", onChain := true,
    txHash := "0xabc" }

/-- A Firestore create call that always resolves with `createdA`. -/
def createFnA : CreateFields → Except String Medicine :=
  fun _ => Except.ok createdA

/-- Witness for C5: the rejected ledger write leaves the store empty and the
result absent. -/
theorem addMedicine_ledger_write_fail_witness :
    (addMedicine addFail chainFnA createFnA payloadA state0).1.medicines
      = state0.medicines ∧
    (addMedicine addFail chainFnA createFnA payloadA state0).2.1 = none :=
  ⟨(addMedicine_ledger_write_fail addFail chainFnA createFnA payloadA state0
      "no signing identity" rfl).1,
   (addMedicine_ledger_write_fail addFail chainFnA createFnA payloadA state0
      "no signing identity" rfl).2.1⟩

/-- Witness for C6: a fully successful add prepends and returns the created
record. -/
theorem addMedicine_success_witness :
    (addMedicine addOk chainFnA createFnA payloadA state0).1.medicines = [createdA] ∧
    (addMedicine addOk chainFnA createFnA payloadA state0).2.1 = some createdA :=
  ⟨(addMedicine_success addOk chainFnA createFnA payloadA state0 "0xabc" (some chainA)
      createdA rfl rfl rfl).1,
   (addMedicine_success addOk chainFnA createFnA payloadA state0 "0xabc" (some chainA)
      createdA rfl rfl rfl).2.1⟩

/-! ## Helper lemmas for update and approve -/

/-- The list part of `updateList` is the pointwise map of the JS `.map`. -/
theorem updateList_fst (id : String) (u : UpdateMedicine) (acc : Option Medicine)
    (l : List Medicine) :
    (updateList id u acc l).1
      = l.map (fun m => if m.id == id then applyUpdate m u else m) := by
  induction l generalizing acc with
  | nil => rfl
  | cons m rest ih =>
    cases hm : m.id == id with
    | true =>
      have hm2 : m.id = id := by simpa using hm
      simp [updateList, hm, hm2, ih]
    | false =>
      have hm2 : ¬ m.id = id := by simpa using hm
      simp [updateList, hm, hm2, ih]

/-- The list part of `approveList` is the pointwise map of the JS `.map`. -/
theorem approveList_fst (now id : String) (acc : Option Medicine)
    (l : List Medicine) :
    (approveList now id acc l).1
      = l.map (fun m => if m.id == id then approveRecord now m else m) := by
  induction l generalizing acc with
  | nil => rfl
  | cons m rest ih =>
    cases hm : m.id == id with
    | true =>
      have hm2 : m.id = id := by simpa using hm
      simp [approveList, hm, hm2, ih]
    | false =>
      have hm2 : ¬ m.id = id := by simpa using hm
      simp [approveList, hm, hm2, ih]

/-- With no matching id, `updateList` returns the list unchanged and the
threaded accumulator untouched. -/
theorem updateList_nomatch (id : String) (u : UpdateMedicine) (l : List Medicine)
    (h : ∀ m ∈ l, (m.id == id) = false) :
    ∀ acc, updateList id u acc l = (l, acc) := by
  induction l with
  | nil => intro acc; rfl
  | cons m rest ih =>
    intro acc
    have hm : (m.id == id) = false := h m (by simp)
    have ih2 := ih (fun x hx => h x (by simp [hx])) acc
    simp [updateList, hm, ih2]

/-- With no matching id, `approveList` returns the list unchanged and the
threaded accumulator untouched. -/
theorem approveList_nomatch (now id : String) (l : List Medicine)
    (h : ∀ m ∈ l, (m.id == id) = false) :
    ∀ acc, approveList now id acc l = (l, acc) := by
  induction l with
  | nil => intro acc; rfl
  | cons m rest ih =>
    intro acc
    have hm : (m.id == id) = false := h m (by simp)
    have ih2 := ih (fun x hx => h x (by simp [hx])) acc
    simp [approveList, hm, ih2]

/-- With exactly one matching record, the threaded result of `updateList` is
that record merged with the response. -/
theorem updateList_snd_single (id : String) (u : UpdateMedicine) (l : List Medicine)
    (m : Medicine) (h : l.filter (fun x => x.id == id) = [m]) :
    ∀ acc, (updateList id u acc l).2 = some (applyUpdate m u) := by
  induction l with
  | nil => simp at h
  | cons x rest ih =>
    intro acc
    cases hx : x.id == id with
    | true =>
      simp only [List.filter_cons, hx, if_true, List.cons.injEq] at h
      obtain ⟨rfl, hrest⟩ := h
      have hall : ∀ m' ∈ rest, (m'.id == id) = false := by
        intro m' hm'
        have := List.filter_eq_nil_iff.mp hrest m' hm'
        simpa using this
      simp only [updateList, hx, if_true]
      rw [updateList_nomatch id u rest hall (some (applyUpdate x u))]
    | false =>
      simp only [List.filter_cons, hx, Bool.false_eq_true, if_false] at h
      simp [updateList, hx, ih h]

/-- C7: on success, approveMedicine sets each matching record's listingStatus
to Approved and appends exactly one history entry with action APPROVED, the
current timestamp, and descriptive text "Approved by Admin" (held in the
code's `changes` field), preserving all prior entries; approving twice
appends two such entries, so approve is not idempotent. -/
theorem approveMedicine_success_spec
    (updateFS : String → UpdateMedicine → Except String UpdateMedicine)
    (now now2 id : String) (s : MedicineState) (u : UpdateMedicine)
    (h : updateFS id approvePayload = Except.ok u) :
    (approveMedicine updateFS now id s).1.medicines
      = s.medicines.map (fun m => if m.id == id then approveRecord now m else m) ∧
    (∀ m : Medicine,
      (approveRecord now m).listingStatus = "Approved" ∧
      (approveRecord now m).history = m.history ++ [mkApproveEntry now] ∧
      (approveRecord now m).history.length = m.history.length + 1 ∧
      mkApproveEntry now
        = { action := "APPROVED", timestamp := now, changes := "Approved by Admin" }) ∧
    (approveMedicine updateFS now2 id (approveMedicine updateFS now id s).1).1.medicines
      = s.medicines.map
          (fun m => if m.id == id then approveRecord now2 (approveRecord now m) else m) ∧
    (∀ m : Medicine, (approveRecord now2 (approveRecord now m)).history
      = m.history ++ [mkApproveEntry now, mkApproveEntry now2]) := by
  have hmain : ∀ (t : String) (st : MedicineState),
      (approveMedicine updateFS t id st).1.medicines
        = st.medicines.map (fun m => if m.id == id then approveRecord t m else m) := by
    intro t st
    simp only [approveMedicine, h]
    exact approveList_fst t id none st.medicines
  refine ⟨hmain now s, ?_, ?_, ?_⟩
  · intro m
    exact ⟨rfl, rfl, by simp [approveRecord], rfl⟩
  · rw [hmain now2 (approveMedicine updateFS now id s).1, hmain now s, List.map_map]
    apply List.map_congr_left
    intro m _
    cases hid : m.id == id with
    | true => simp [Function.comp, hid, approveRecord]
    | false => simp [Function.comp, hid]
  · intro m
    simp [approveRecord]

/-- C8: on success, updateMedicine shallow-merges the returned fields into
the record matching the id (a field absent from the response keeps its prior
value, a present field overwrites it, and the identifier is untouched),
leaves every other record in the list unchanged, and returns the merged
record; on rejection it returns none and leaves the list unchanged. -/
theorem updateMedicine_spec
    (updateFS : String → UpdateMedicine → Except String UpdateMedicine)
    (id : String) (payload : UpdateMedicine) (s : MedicineState) :
    (∀ updatedData m, updateFS id payload = Except.ok updatedData →
      s.medicines.filter (fun x => x.id == id) = [m] →
      (updateMedicine updateFS id payload s).1.medicines
        = s.medicines.map (fun x => if x.id == id then applyUpdate x updatedData else x) ∧
      (updateMedicine updateFS id payload s).2.1 = some (applyUpdate m updatedData)) ∧
    (∀ (x : Medicine) (u : UpdateMedicine), (applyUpdate x u).id = x.id ∧
      (u.name = none → (applyUpdate x u).name = x.name) ∧
      (∀ v, u.name = some v → (applyUpdate x u).name = v) ∧
      (u.batchNo = none → (applyUpdate x u).batchNo = x.batchNo) ∧
      (∀ v, u.batchNo = some v → (applyUpdate x u).batchNo = v) ∧
      (u.manufacturer = none → (applyUpdate x u).manufacturer = x.manufacturer) ∧
      (∀ v, u.manufacturer = some v → (applyUpdate x u).manufacturer = v) ∧
      (u.price = none → (applyUpdate x u).price = x.price) ∧
      (∀ v, u.price = some v → (applyUpdate x u).price = v) ∧
      (u.stock = none → (applyUpdate x u).stock = x.stock) ∧
      (∀ v, u.stock = some v → (applyUpdate x u).stock = v) ∧
      (u.mfgDate = none → (applyUpdate x u).mfgDate = x.mfgDate) ∧
      (∀ v, u.mfgDate = some v → (applyUpdate x u).mfgDate = v) ∧
      (u.expDate = none → (applyUpdate x u).expDate = x.expDate) ∧
      (∀ v, u.expDate = some v → (applyUpdate x u).expDate = v) ∧
      (u.stockStatus = none → (applyUpdate x u).stockStatus = x.stockStatus) ∧
      (∀ v, u.stockStatus = some v → (applyUpdate x u).stockStatus = v) ∧
      (u.ledgerStatus = none → (applyUpdate x u).ledgerStatus = x.ledgerStatus) ∧
      (∀ v, u.ledgerStatus = some v → (applyUpdate x u).ledgerStatus = v) ∧
      (u.listingStatus = none → (applyUpdate x u).listingStatus = x.listingStatus) ∧
      (∀ v, u.listingStatus = some v → (applyUpdate x u).listingStatus = v) ∧
      (u.onChain = none → (applyUpdate x u).onChain = x.onChain) ∧
      (∀ v, u.onChain = some v → (applyUpdate x u).onChain = v) ∧
      (u.txHash = none → (applyUpdate x u).txHash = x.txHash) ∧
      (∀ v, u.txHash = some v → (applyUpdate x u).txHash = v) ∧
      (u.history = none → (applyUpdate x u).history = x.history) ∧
      (∀ v, u.history = some v → (applyUpdate x u).history = v)) ∧
    (∀ e, updateFS id payload = Except.error e →
      (updateMedicine updateFS id payload s).2.1 = none ∧
      (updateMedicine updateFS id payload s).1.medicines = s.medicines) := by
  refine ⟨?_, ?_, ?_⟩
  · intro updatedData m hok hfil
    constructor
    · simp only [updateMedicine, hok]
      exact updateList_fst id updatedData none s.medicines
    · simp only [updateMedicine, hok]
      exact updateList_snd_single id updatedData s.medicines m hfil none
  · intro x u
    repeat' apply And.intro
    all_goals intros
    all_goals simp_all [applyUpdate]
  · intro e herr
    simp [updateMedicine, herr]

/-- C10: when no record in the list has the given identifier, update and
approve still perform the Firestore write (it is the recorded call), leave
the in-memory list unchanged, and return none even though the remote call
succeeded — indistinguishable from a failure's return value. -/
theorem updateApprove_missing_id
    (updateFS : String → UpdateMedicine → Except String UpdateMedicine)
    (now id : String) (payload : UpdateMedicine) (s : MedicineState)
    (u u2 : UpdateMedicine)
    (hno : ∀ m ∈ s.medicines, (m.id == id) = false)
    (h1 : updateFS id payload = Except.ok u)
    (h2 : updateFS id approvePayload = Except.ok u2) :
    (updateMedicine updateFS id payload s).2.1 = none ∧
    (updateMedicine updateFS id payload s).1.medicines = s.medicines ∧
    (updateMedicine updateFS id payload s).2.2 = [ExtCall.fsUpdate id payload] ∧
    (approveMedicine updateFS now id s).2.1 = none ∧
    (approveMedicine updateFS now id s).1.medicines = s.medicines ∧
    (approveMedicine updateFS now id s).2.2 = [ExtCall.fsUpdate id approvePayload] := by
  have hu := updateList_nomatch id u s.medicines hno none
  have ha := approveList_nomatch now id s.medicines hno none
  refine ⟨?_, ?_, ?_, ?_, ?_, ?_⟩
  · simp [updateMedicine, h1, hu]
  · simp [updateMedicine, h1, hu]
  · simp [updateMedicine, h1]
  · simp [approveMedicine, h2, ha]
  · simp [approveMedicine, h2, ha]
  · simp [approveMedicine, h2]

/-- A sample partial update: overwrite stock and price, leave the rest. -/
def updA : UpdateMedicine := { stock := some 5, price := some 12 }

/-- A Firestore update call that always resolves with `updA`. -/
def updFnA : String → UpdateMedicine → Except String UpdateMedicine :=
  fun _ _ => Except.ok updA

/-- A store state holding the single record `medA`. -/
def stateA : MedicineState :=
  { medicines := [medA], isInitialized := true, error := none, loading := false }

/-- Witness for C7: approving the only record appends its history entry; two
approvals append two entries. -/
theorem approveMedicine_success_witness :
    (approveMedicine updFnA "t1" "m1" stateA).1.medicines = [approveRecord "t1" medA] ∧
    (approveRecord "t2" (approveRecord "t1" medA)).history
      = medA.history ++ [mkApproveEntry "t1", mkApproveEntry "t2"] := by
  constructor
  · exact (approveMedicine_success_spec updFnA "t1" "t2" "m1" stateA updA rfl).1
  · exact (approveMedicine_success_spec updFnA "t1" "t2" "m1" stateA updA rfl).2.2.2 medA

/-- Witness for C8: a successful update of the only record returns the merged
record. -/
theorem updateMedicine_spec_witness :
    (updateMedicine updFnA "m1" updA stateA).2.1 = some (applyUpdate medA updA) :=
  ((updateMedicine_spec updFnA "m1" updA stateA).1 updA medA rfl (by decide)).2

/-- Witness for C10: updating a missing id returns none while the list keeps
its record. -/
theorem updateApprove_missing_id_witness :
    (updateMedicine updFnA "zzz" updA stateA).2.1 = none ∧
    (approveMedicine updFnA "t1" "zzz" stateA).1.medicines = stateA.medicines :=
  ⟨(updateApprove_missing_id updFnA "t1" "zzz" updA stateA updA updA
      (by decide) rfl rfl).1,
   (updateApprove_missing_id updFnA "t1" "zzz" updA stateA updA updA
      (by decide) rfl rfl).2.2.2.2.1⟩

/-- A lookup function that never rejects makes the merge loop total: it
returns the pointwise merge of the whole list. -/
theorem fetchLoop_total (g : String → Option ChainData) (meds : List Medicine) :
    fetchLoop (fun b => Except.ok (g b)) meds
      = Except.ok (meds.map (fun med => mergeMedicine (g med.batchNo) med)) := by
  induction meds with
  | nil => rfl
  | cons med rest ih => simp [fetchLoop, ih]

/-- `Forall₂` between a list and its own map. -/
theorem forall2_map_self {α β : Type} (R : α → β → Prop) (f : α → β) (l : List α)
    (h : ∀ a, R a (f a)) : List.Forall₂ R l (l.map f) := by
  induction l with
  | nil => exact List.Forall₂.nil
  | cons a rest ih => exact List.Forall₂.cons (h a) ih

/-- C9: the ledger read wrapper returns an absent value instead of raising
when the underlying contract call rejects; a fetch through the wrapper never
aborts because of a ledger read and does not set the store error, and a
record whose contract read rejected is merged exactly as if the ledger had
reported no entry, ending as Pending Confirmation. -/
theorem getMedicineOnChain_resilient
    (contractGet : String → Except String ChainData)
    (getMeds : Except String (List Medicine)) (s : MedicineState)
    (meds : List Medicine) (hm : getMeds = Except.ok meds) :
    (∀ batch e, contractGet batch = Except.error e →
      getMedicineOnChain contractGet batch = none) ∧
    fetchLoop (fun b => Except.ok (getMedicineOnChain contractGet b)) meds
      = Except.ok (meds.map
          (fun med => mergeMedicine (getMedicineOnChain contractGet med.batchNo) med)) ∧
    (fetchMedicines getMeds (fun b => Except.ok (getMedicineOnChain contractGet b)) s).error
      = s.error ∧
    List.Forall₂
      (fun med r => ∀ e, contractGet med.batchNo = Except.error e →
        r = mergeMedicine none med ∧ r.ledgerStatus = "Pending Confirmation")
      meds
      (fetchMedicines getMeds
        (fun b => Except.ok (getMedicineOnChain contractGet b)) s).medicines := by
  have hwrap : ∀ batch e, contractGet batch = Except.error e →
      getMedicineOnChain contractGet batch = none := by
    intro batch e he
    simp [getMedicineOnChain, he]
  have hloop := fetchLoop_total (getMedicineOnChain contractGet) meds
  have hres : fetchResult getMeds (fun b => Except.ok (getMedicineOnChain contractGet b))
      = Except.ok (meds.map
          (fun med => mergeMedicine (getMedicineOnChain contractGet med.batchNo) med)) := by
    simp [fetchResult, hm, hloop]
  have hfetch := fetchMedicines_ok getMeds
    (fun b => Except.ok (getMedicineOnChain contractGet b)) s
    (meds.map (fun med => mergeMedicine (getMedicineOnChain contractGet med.batchNo) med))
    hres
  refine ⟨hwrap, hloop, ?_, ?_⟩
  · rw [hfetch]
  · rw [hfetch]
    apply forall2_map_self
    intro med e he
    rw [hwrap med.batchNo e he]
    refine ⟨rfl, ?_⟩
    rw [mergeMedicine_not_reported none med rfl]

/-- A contract read that always rejects. -/
def contractFail : String → Except String ChainData :=
  fun _ => Except.error "Blockchain fetch error"

/-- Witness for C9: the wrapper turns the rejected contract read into an
absent value, and the fetched record ends Pending Confirmation. -/
theorem getMedicineOnChain_resilient_witness :
    getMedicineOnChain contractFail "B1" = none :=
  (getMedicineOnChain_resilient contractFail (Except.ok [medA]) state0 [medA] rfl).1
    "B1" "Blockchain fetch error" rfl
